import Mathlib

/-!
Shallow embedding of the Money-Timer repository's core logic:
the `ClockFace` widget's geometry, configuration and refresh code
(`clockface.py`) and the `MoneyTimer` persistence helpers
(`money_timer.py`).  Machine floats are modelled by real numbers,
Python ints by `Int`/`Nat`, and Python's dynamically typed values by
explicit sum types.
-/

namespace ClockFace

/-- `ClockFace._STEP_12 = 2 * pi / 12` (clockface.py line 59). -/
noncomputable def STEP_12 : ℝ := 2 * Real.pi / 12

/-- `ClockFace._STEP_60 = 2 * pi / 60` (clockface.py line 60). -/
noncomputable def STEP_60 : ℝ := 2 * Real.pi / 60

/-- `ClockFace._get_hand_angles` (clockface.py lines 357-366): hour, minute
and second hand angles computed from the stored time sample and the
sub-second accumulator `_ms`, with the second hand depending on the
`smooth` configuration flag. -/
noncomputable def get_hand_angles (hour minute second ms : ℕ) (smooth : Bool) :
    ℝ × ℝ × ℝ :=
  (STEP_12 * ((hour % 12 : ℕ) + (minute : ℝ) / 60 + (second : ℝ) / 3600),
   STEP_60 * ((minute : ℝ) + (second : ℝ) / 60),
   if smooth then STEP_60 * ((second : ℝ) + (ms : ℝ) / 1000)
   else STEP_60 * (second : ℝ))

/-- `ClockFace._get_components` (clockface.py lines 386-387):
polar-to-Cartesian conversion `(mag*sin(theta), mag*cos(theta))`. -/
noncomputable def get_components (mag theta : ℝ) : ℝ × ℝ :=
  (mag * Real.sin theta, mag * Real.cos theta)

/-- `ClockFace._get_line_coords` (clockface.py lines 376-378):
line from `(x, y)` to `(x + dx, y - dy)`. -/
noncomputable def get_line_coords (x y mag theta : ℝ) : ℝ × ℝ × ℝ × ℝ :=
  (x, y, x + (get_components mag theta).1, y - (get_components mag theta).2)

/-- Two-argument arctangent, written through `Complex.arg`:
`atan2 y x = arg (x + y*I)`, the angle of the point `(x, y)`. -/
noncomputable def atan2 (y x : ℝ) : ℝ := Complex.arg (x + y * Complex.I)

/-- `ClockFace._valid_hex` (clockface.py lines 460-467): length 7,
leading `#`, six case-insensitive hex digits. -/
def valid_hex (s : String) : Bool :=
  s.data.length = 7 && s.data.head? = some '#' &&
    (s.data.drop 1).all (fun c => "0123456789abcdef".data.contains c.toLower)

/-- Python's `c * k` string repetition for a single character `c`. -/
def srep (c : Char) (k : ℕ) : String := String.mk (List.replicate k c)

/-- `ClockFace._roman_num` (clockface.py lines 395-419): roman numeral
conversion for numbers up to 99, tens digit then ones digit. -/
def roman_num (num : ℕ) : String :=
  let temp := num / 10
  let tens :=
    if temp % 10 = 9 then "XC"
    else if temp % 10 ≥ 5 then "L" ++ srep 'X' (temp % 5)
    else if temp % 5 = 4 then "XL"
    else srep 'X' (temp % 5)
  let ones :=
    if num % 10 = 9 then "IX"
    else if num % 10 ≥ 5 then "V" ++ srep 'I' (num % 5)
    else if num % 5 = 4 then "IV"
    else srep 'I' (num % 5)
  tens ++ ones

/-- Standard subtractive roman numerals for 0-99, by table lookup on the
tens and ones digits.  This is the specification-side definition the
code's `roman_num` is compared against. -/
def romanStd (n : ℕ) : String :=
  (["", "X", "XX", "XXX", "XL", "L", "LX", "LXX", "LXXX", "XC"].getD (n / 10) "") ++
  (["", "I", "II", "III", "IV", "V", "VI", "VII", "VIII", "IX"].getD (n % 10) "")

/-- A Python value passed to `ClockFace.config`: a string, a Tkinter
`PhotoImage`, an int, a float, or a bool.  Python's `bool` is a subclass
of `int`, which `isPyNum` below accounts for. -/
inductive Value where
  | str (s : String)
  | img
  | int (n : ℤ)
  | float (q : ℚ)
  | bool (b : Bool)
deriving DecidableEq

/-- Python's `isinstance(val, int) or isinstance(val, float)` test used by
the `size`, `wedge_size` and `update_rate` options (`bool` is an `int`). -/
def Value.isPyNum : Value → Bool
  | .int _ => true
  | .float _ => true
  | .bool _ => true
  | _ => false

/-- Numeric value of a Python number (`True == 1`, `False == 0`). -/
def Value.toRat : Value → ℚ
  | .int n => (n : ℚ)
  | .float q => q
  | .bool b => if b then 1 else 0
  | _ => 0

/-- The kind of exception `ClockFace.config` raises: `TypeError`,
`ValueError`, `KeyError` or `NotImplementedError`. -/
inductive FaultKind where
  | typeError
  | valueError
  | keyError
  | notImplemented
deriving DecidableEq

/-- An exception raised by `ClockFace.config`, recording which option's
message it carries and the kind of fault. -/
structure ConfigError where
  key : String
  kind : FaultKind
deriving DecidableEq

/-- The `_configVars` dictionary of a `ClockFace` together with the
`_bgImg` slot (whether an image background is installed). -/
structure ConfigState where
  background : String
  bgImg : Bool
  handcolor : String
  markcolor : String
  marks : String
  shape : String
  size : ℚ
  smooth : Bool
  wedge_size : ℚ
  update_rate : ℚ
deriving DecidableEq

/-- `ClockFace.DEFAULT_CONFIG` (clockface.py lines 43-51), with no
background image installed. -/
def DEFAULT_CONFIG : ConfigState :=
  { background := "#DDEEEE"
    bgImg := false
    handcolor := "#0000EE"
    markcolor := "#FF9933"
    marks := "TICKS"
    shape := "SQUARE"
    size := 300
    smooth := false
    wedge_size := 1/2
    update_rate := 10 }

/-- The `background`/`bg` branch of `ClockFace.config` (clockface.py
lines 115-133): a string becomes the color background and releases any
image, an image is installed without touching the stored color. -/
def stepBackground (s : ConfigState) (val : Value) :
    Except ConfigError ConfigState :=
  match val with
  | .str c => .ok { s with background := c, bgImg := false }
  | .img => .ok { s with bgImg := true }
  | _ => .error ⟨"background", .typeError⟩

/-- The `handcolor` branch (clockface.py lines 136-144). -/
def stepHandcolor (s : ConfigState) (val : Value) :
    Except ConfigError ConfigState :=
  match val with
  | .str c =>
    if valid_hex c then .ok { s with handcolor := c }
    else .error ⟨"handcolor", .valueError⟩
  | _ => .error ⟨"handcolor", .typeError⟩

/-- The `markcolor`/`mk` branch (clockface.py lines 147-155). -/
def stepMarkcolor (s : ConfigState) (val : Value) :
    Except ConfigError ConfigState :=
  match val with
  | .str c =>
    if valid_hex c then .ok { s with markcolor := c }
    else .error ⟨"markcolor", .valueError⟩
  | _ => .error ⟨"markcolor", .typeError⟩

/-- The `marks` branch (clockface.py lines 158-163); Python's
`val in (TICKS, ARABIC, ROMAN)` is false for any non-string value. -/
def stepMarks (s : ConfigState) (val : Value) :
    Except ConfigError ConfigState :=
  match val with
  | .str m =>
    if m = "TICKS" ∨ m = "ARABIC" ∨ m = "ROMAN" then .ok { s with marks := m }
    else .error ⟨"marks", .valueError⟩
  | _ => .error ⟨"marks", .valueError⟩

/-- The `shape` branch (clockface.py lines 166-172): both recognized
values raise `NotImplementedError`, others `ValueError`. -/
def stepShape (val : Value) : Except ConfigError ConfigState :=
  if val = .str "SQUARE" then .error ⟨"shape", .notImplemented⟩
  else if val = .str "ROUND" then .error ⟨"shape", .notImplemented⟩
  else .error ⟨"shape", .valueError⟩

/-- The `size` branch (clockface.py lines 175-180): any numeric value is
accepted, with no positivity check. -/
def stepSize (s : ConfigState) (val : Value) :
    Except ConfigError ConfigState :=
  if val.isPyNum then .ok { s with size := val.toRat }
  else .error ⟨"size", .typeError⟩

/-- The `smooth` branch (clockface.py lines 183-187). -/
def stepSmooth (s : ConfigState) (val : Value) :
    Except ConfigError ConfigState :=
  match val with
  | .bool b => .ok { s with smooth := b }
  | _ => .error ⟨"smooth", .typeError⟩

/-- The `wedge_size` branch (clockface.py lines 189-196): in-range
values raise `NotImplementedError`, out-of-range `ValueError`. -/
def stepWedge (val : Value) : Except ConfigError ConfigState :=
  if val.isPyNum then
    if 0 < val.toRat ∧ val.toRat ≤ 1 then .error ⟨"wedge_size", .notImplemented⟩
    else .error ⟨"wedge_size", .valueError⟩
  else .error ⟨"wedge_size", .typeError⟩

/-- The `update_rate` branch (clockface.py lines 199-206). -/
def stepUpdateRate (s : ConfigState) (val : Value) :
    Except ConfigError ConfigState :=
  if val.isPyNum then
    if 0 < val.toRat then .ok { s with update_rate := val.toRat }
    else .error ⟨"update_rate", .valueError⟩
  else .error ⟨"update_rate", .typeError⟩

/-- One iteration of the `for key, val in kwargs.items()` loop of
`ClockFace.config` (clockface.py lines 106-211): either the updated state
or the exception raised for this entry.  Canvas drawing side effects are
outside the model; the stored configuration and `_bgImg` are tracked. -/
def step (s : ConfigState) (key : String) (val : Value) :
    Except ConfigError ConfigState :=
  if key = "background" ∨ key = "bg" then stepBackground s val
  else if key = "handcolor" then stepHandcolor s val
  else if key = "markcolor" ∨ key = "mk" then stepMarkcolor s val
  else if key = "marks" then stepMarks s val
  else if key = "shape" then stepShape val
  else if key = "size" then stepSize s val
  else if key = "smooth" then stepSmooth s val
  else if key = "wedge_size" then stepWedge val
  else if key = "update_rate" then stepUpdateRate s val
  else .error ⟨key, .keyError⟩

/-- `ClockFace.config` over an ordered list of keyword entries: entries
are applied in order; the first exception stops the loop, and the state
reached so far (Python mutates `_configVars` in place) is kept. -/
def config : ConfigState → List (String × Value) → ConfigState × Option ConfigError
  | s, [] => (s, none)
  | s, (k, v) :: rest =>
    match step s k v with
    | .ok s1 => config s1 rest
    | .error e => (s, some e)

/-- Configuration states reachable from construction (the defaults) by
any sequence of `config` calls, keeping the partially-mutated state even
when a call raises. -/
inductive Reach : ConfigState → Prop where
  | init : Reach DEFAULT_CONFIG
  | update (s : ConfigState) (l : List (String × Value)) :
      Reach s → Reach (config s l).1

/-- The delay `ClockFace._tick` passes to `canvas.after`
(clockface.py line 453): `1000 // update_rate`, independent of the
`smooth` flag. -/
def tick_delay (s : ConfigState) : ℤ := ⌊(1000 : ℚ) / s.update_rate⌋

end ClockFace

namespace MoneyTimer

/-- A parsed JSON value as produced by Python's `json.loads`: `None`,
`bool`, `int`, `float`, `str`, `list` or `dict`. -/
inductive JValue where
  | null
  | jbool (b : Bool)
  | jint (n : ℤ)
  | jfloat (q : ℚ)
  | jstr (s : String)
  | jarr (xs : List JValue)
  | jobj (kvs : List (String × JValue))

/-- The Python runtime types relevant to the settings and history files. -/
inductive PyTy where
  | bool
  | int
  | float
  | str
  | list
  | dict
  | none
deriving DecidableEq

/-- Python's `type(v)` for a parsed JSON value. -/
def JValue.pyType : JValue → PyTy
  | .null => .none
  | .jbool _ => .bool
  | .jint _ => .int
  | .jfloat _ => .float
  | .jstr _ => .str
  | .jarr _ => .list
  | .jobj _ => .dict

/-- Python's `isinstance(v, ty)` for a parsed JSON value; a `bool` is an
instance of `int` because `bool` subclasses `int`. -/
def isInstance (v : JValue) (ty : PyTy) : Bool :=
  match ty, v with
  | .int, .jint _ => true
  | .int, .jbool _ => true
  | .float, .jfloat _ => true
  | .str, .jstr _ => true
  | .bool, .jbool _ => true
  | .list, .jarr _ => true
  | .dict, .jobj _ => true
  | _, _ => false

/-- `MoneyTimer.DEFAULT_SETTINGS` (money_timer.py lines 73-84). -/
def DEFAULT_SETTINGS : List (String × JValue) :=
  [("autoLunchEnabled", .jbool false),
   ("autoLunchStartTime", .jarr [.jint 12, .jint 0]),
   ("autoLunchStopTime", .jarr [.jint 13, .jint 0]),
   ("hourlyRate", .jfloat (43/2)),
   ("Mon", .jfloat 8),
   ("Tues", .jfloat 8),
   ("Wed", .jfloat 8),
   ("Thurs", .jfloat 8),
   ("Fri", .jfloat 8),
   ("Sat", .jfloat 0),
   ("Sun", .jfloat 0)]

/-- Point update of a Python dict modelled as a lookup function
(`temp[key] = v`). -/
def setKey (t : String → Option JValue) (k : String) (v : JValue) :
    String → Option JValue :=
  fun q => if q = k then some v else t q

/-- One iteration of the `for key in DEFAULT_SETTINGS.keys()` loop of
`MoneyTimer.load_settings` (money_timer.py lines 764-768): a missing key
is filled with the default, a key whose stored value has the wrong
Python type is reset to the default, and otherwise the dict is
unchanged. -/
def mergeStep (t : String → Option JValue) (kv : String × JValue) :
    String → Option JValue :=
  match t kv.1 with
  | none => setKey t kv.1 kv.2
  | some v => if v.pyType ≠ kv.2.pyType then setKey t kv.1 kv.2 else t

/-- `MoneyTimer.load_settings` (money_timer.py lines 758-771) on a stored
document that parsed as a JSON object, modelled as a lookup function. -/
def load_settings (t : String → Option JValue) : String → Option JValue :=
  DEFAULT_SETTINGS.foldl mergeStep t

/-- `MoneyTimer.HISTORY_FORMAT` (money_timer.py lines 84-90). -/
def HISTORY_FORMAT : List (String × PyTy) :=
  [("year", .int), ("mon", .int), ("day", .int), ("wday", .str),
   ("secSoFar", .float), ("earnings", .float), ("percent", .float)]

/-- A history record: a JSON object, as an association list. -/
def lookupKey (r : List (String × JValue)) (k : String) : Option JValue :=
  (r.find? (fun kv => kv.1 == k)).map Prod.snd

/-- Python's `v == n` between a parsed JSON value and an int
(`2026.0 == 2026` and `True == 1` are true in Python). -/
def pyEqInt (v : JValue) (n : ℤ) : Bool :=
  match v with
  | .jint m => m == n
  | .jfloat q => q == (n : ℚ)
  | .jbool b => (if b then (1 : ℤ) else 0) == n
  | _ => false

/-- The `localtime()` fields `load_history` compares against. -/
structure Date where
  year : ℤ
  mon : ℤ
  day : ℤ

/-- The short-circuiting test
`temp[i]["year"] == y and temp[i]["mon"] == m and temp[i]["day"] == d`
(money_timer.py lines 801-803); `none` models a `KeyError` on a missing
field, caught by the surrounding `except`. -/
def matchesToday (d : Date) (r : List (String × JValue)) : Option Bool :=
  match lookupKey r "year" with
  | none => none
  | some vy =>
    if pyEqInt vy d.year then
      match lookupKey r "mon" with
      | none => none
      | some vm =>
        if pyEqInt vm d.mon then
          match lookupKey r "day" with
          | none => none
          | some vd => some (pyEqInt vd d.day)
        else some false
    else some false

/-- The `for key in MoneyTimer.HISTORY_FORMAT.keys()` validation loop
(money_timer.py lines 806-808): `none` is a `KeyError` on a missing
field, `some false` a failed `isinstance` check. -/
def validateFields (r : List (String × JValue)) :
    List (String × PyTy) → Option Bool
  | [] => some true
  | (k, ty) :: rest =>
    match lookupKey r k with
    | none => none
    | some v => if isInstance v ty then validateFields r rest else some false

/-- Validation of one history record against `HISTORY_FORMAT`. -/
def validateRec (r : List (String × JValue)) : Option Bool :=
  validateFields r HISTORY_FORMAT

/-- The `for i in range(len(temp))` loop of `MoneyTimer.load_history`
(money_timer.py lines 798-811) over the remaining suffix of the parsed
array: a record matching today's date is remembered in `toDel` and skips
validation; an invalid record returns `[]` at once; a missing field
(`none`) raises, and the `except` clause returns `[]`.  At the end the
remembered current-day record is deleted from the full array. -/
def histGo (d : Date) (temp : List (List (String × JValue))) :
    List (List (String × JValue)) → ℕ → Option ℕ → List (List (String × JValue))
  | [], _, toDel =>
    match toDel with
    | none => temp
    | some j => temp.eraseIdx j
  | r :: rest, i, toDel =>
    match matchesToday d r with
    | none => []
    | some true => histGo d temp rest (i + 1) (some i)
    | some false =>
      match validateRec r with
      | none => []
      | some false => []
      | some true => histGo d temp rest (i + 1) toDel

/-- `MoneyTimer.load_history` (money_timer.py lines 793-814) on a stored
document that parsed as a JSON array of objects. -/
def load_history (d : Date) (temp : List (List (String × JValue))) :
    List (List (String × JValue)) :=
  histGo d temp temp 0 none

end MoneyTimer

namespace ClockFace

/-- C1: for every valid time sample, `get_hand_angles` returns
`hourAngle = (2π/12)·(hour mod 12 + minute/60 + second/3600)`,
`minuteAngle = (2π/60)·(minute + second/60)`, and
`secondAngle = (2π/60)·(second + ms/1000)` when smooth else
`(2π/60)·second`; in particular at 6:00:00 with smooth off it returns
`(π, 0, 0)`. -/
theorem hand_angles_formula :
    (∀ (hour minute second ms : ℕ) (smooth : Bool),
      hour ≤ 23 → minute ≤ 59 → second ≤ 59 → ms ≤ 999 →
      get_hand_angles hour minute second ms smooth =
        (2 * Real.pi / 12 *
            ((hour % 12 : ℕ) + (minute : ℝ) / 60 + (second : ℝ) / 3600),
         2 * Real.pi / 60 * ((minute : ℝ) + (second : ℝ) / 60),
         if smooth then 2 * Real.pi / 60 * ((second : ℝ) + (ms : ℝ) / 1000)
         else 2 * Real.pi / 60 * (second : ℝ))) ∧
    get_hand_angles 6 0 0 0 false = (Real.pi, 0, 0) := by
  constructor
  · intro hour minute second ms smooth _ _ _ _
    rfl
  · simp only [get_hand_angles, STEP_12, STEP_60]
    norm_num
    ring

/-- Witness for C1 at hour=0, minute=0, second=0, ms=0, smooth=true. -/
theorem hand_angles_formula_witness :
    get_hand_angles 0 0 0 0 true =
      (2 * Real.pi / 12 *
          (((0 : ℕ) % 12 : ℕ) + ((0 : ℕ) : ℝ) / 60 + ((0 : ℕ) : ℝ) / 3600),
       2 * Real.pi / 60 * (((0 : ℕ) : ℝ) + ((0 : ℕ) : ℝ) / 60),
       if true then 2 * Real.pi / 60 * (((0 : ℕ) : ℝ) + ((0 : ℕ) : ℝ) / 1000)
       else 2 * Real.pi / 60 * ((0 : ℕ) : ℝ)) :=
  hand_angles_formula.1 0 0 0 0 true (by norm_num) (by norm_num) (by norm_num)
    (by norm_num)

/-- C2: for every valid time sample and either smooth flag, each of the
three hand angles lies in `[0, 2π)`. -/
theorem hand_angles_range (hour minute second ms : ℕ) (smooth : Bool)
    (hh : hour ≤ 23) (hm : minute ≤ 59) (hs : second ≤ 59) (hms : ms ≤ 999) :
    (0 ≤ (get_hand_angles hour minute second ms smooth).1 ∧
      (get_hand_angles hour minute second ms smooth).1 < 2 * Real.pi) ∧
    (0 ≤ (get_hand_angles hour minute second ms smooth).2.1 ∧
      (get_hand_angles hour minute second ms smooth).2.1 < 2 * Real.pi) ∧
    (0 ≤ (get_hand_angles hour minute second ms smooth).2.2 ∧
      (get_hand_angles hour minute second ms smooth).2.2 < 2 * Real.pi) := by
  have hmod : ((hour % 12 : ℕ) : ℝ) ≤ 11 := by
    have h12 : hour % 12 ≤ 11 := by omega
    exact_mod_cast h12
  have ha0 : (0 : ℝ) ≤ ((hour % 12 : ℕ) : ℝ) := Nat.cast_nonneg _
  have hm' : ((minute : ℕ) : ℝ) ≤ 59 := by exact_mod_cast hm
  have hm0 : (0 : ℝ) ≤ (minute : ℝ) := Nat.cast_nonneg _
  have hs' : ((second : ℕ) : ℝ) ≤ 59 := by exact_mod_cast hs
  have hs0 : (0 : ℝ) ≤ (second : ℝ) := Nat.cast_nonneg _
  have hms' : ((ms : ℕ) : ℝ) ≤ 999 := by exact_mod_cast hms
  have hms0 : (0 : ℝ) ≤ (ms : ℝ) := Nat.cast_nonneg _
  have hpi := Real.pi_pos
  cases smooth
  case false =>
    simp only [get_hand_angles, STEP_12, STEP_60, Bool.false_eq_true, if_false]
    refine ⟨⟨?_, ?_⟩, ⟨?_, ?_⟩, ⟨?_, ?_⟩⟩
    · positivity
    · nlinarith [mul_pos hpi
        (show (0 : ℝ) < 12 - (((hour % 12 : ℕ) : ℝ) + (minute : ℝ) / 60 +
          (second : ℝ) / 3600) by linarith)]
    · positivity
    · nlinarith [mul_pos hpi
        (show (0 : ℝ) < 60 - ((minute : ℝ) + (second : ℝ) / 60) by linarith)]
    · positivity
    · nlinarith [mul_pos hpi (show (0 : ℝ) < 60 - (second : ℝ) by linarith)]
  case true =>
    simp only [get_hand_angles, STEP_12, STEP_60, if_true]
    refine ⟨⟨?_, ?_⟩, ⟨?_, ?_⟩, ⟨?_, ?_⟩⟩
    · positivity
    · nlinarith [mul_pos hpi
        (show (0 : ℝ) < 12 - (((hour % 12 : ℕ) : ℝ) + (minute : ℝ) / 60 +
          (second : ℝ) / 3600) by linarith)]
    · positivity
    · nlinarith [mul_pos hpi
        (show (0 : ℝ) < 60 - ((minute : ℝ) + (second : ℝ) / 60) by linarith)]
    · positivity
    · nlinarith [mul_pos hpi
        (show (0 : ℝ) < 60 - ((second : ℝ) + (ms : ℝ) / 1000) by linarith)]

/-- Witness for C2 at midnight with smooth off. -/
theorem hand_angles_range_witness :
    (0 ≤ (get_hand_angles 0 0 0 0 false).1 ∧
      (get_hand_angles 0 0 0 0 false).1 < 2 * Real.pi) ∧
    (0 ≤ (get_hand_angles 0 0 0 0 false).2.1 ∧
      (get_hand_angles 0 0 0 0 false).2.1 < 2 * Real.pi) ∧
    (0 ≤ (get_hand_angles 0 0 0 0 false).2.2 ∧
      (get_hand_angles 0 0 0 0 false).2.2 < 2 * Real.pi) :=
  hand_angles_range 0 0 0 0 false (by norm_num) (by norm_num) (by norm_num)
    (by norm_num)

/-- C8: `get_line_coords` sends center `(x, y)`, radius `r` and clockwise
angle `theta` to the endpoint `(x + r·sin theta, y − r·cos theta)`. -/
theorem line_coords_endpoint (x y r theta : ℝ) :
    get_line_coords x y r theta =
      (x, y, x + r * Real.sin theta, y - r * Real.cos theta) := rfl

/-- Witness for C8 at `x = 0, y = 0, r = 1, theta = 0`. -/
theorem line_coords_endpoint_witness :
    get_line_coords 0 0 1 0 =
      (0, 0, 0 + 1 * Real.sin 0, 0 - 1 * Real.cos 0) :=
  line_coords_endpoint 0 0 1 0

/-- C9: for `r > 0`, converting `(r, theta)` to components
`(dx, dy) = (r·sin theta, r·cos theta)` and then taking the clockwise
`atan2 dx dy` recovers `theta` modulo `2π` (as an equality in
`Real.Angle`), and `sqrt (dx² + dy²)` recovers `r` exactly. -/
theorem components_roundtrip (r theta : ℝ) (hr : 0 < r) :
    ((atan2 (get_components r theta).1 (get_components r theta).2 : ℝ) :
        Real.Angle) = (theta : Real.Angle) ∧
    Real.sqrt ((get_components r theta).1 ^ 2 + (get_components r theta).2 ^ 2)
      = r := by
  constructor
  · have harg : atan2 (get_components r theta).1 (get_components r theta).2 =
        Complex.arg ((r : ℂ) *
          (Real.Angle.cos (theta : Real.Angle) +
            Real.Angle.sin (theta : Real.Angle) * Complex.I)) := by
      unfold atan2 get_components
      rw [Real.Angle.cos_coe, Real.Angle.sin_coe]
      push_cast
      ring_nf
    rw [harg]
    exact Complex.arg_mul_cos_add_sin_mul_I_coe_angle hr (theta : Real.Angle)
  · have hsq : (get_components r theta).1 ^ 2 + (get_components r theta).2 ^ 2
        = r ^ 2 := by
      show (r * Real.sin theta) ^ 2 + (r * Real.cos theta) ^ 2 = r ^ 2
      nlinarith [Real.sin_sq_add_cos_sq theta]
    rw [hsq, Real.sqrt_sq hr.le]

/-- Witness for C9 at `r = 1, theta = 0`. -/
theorem components_roundtrip_witness :
    ((atan2 (get_components 1 0).1 (get_components 1 0).2 : ℝ) :
        Real.Angle) = ((0 : ℝ) : Real.Angle) ∧
    Real.sqrt ((get_components 1 0).1 ^ 2 + (get_components 1 0).2 ^ 2) = 1 :=
  components_roundtrip 1 0 one_pos

/-- C10: on 1..99 the code's `roman_num` agrees with the standard
subtractive roman numeral table; in particular it is correct on the hour
labels 1..12. -/
theorem roman_num_correct (n : ℕ) (h1 : 1 ≤ n) (h99 : n ≤ 99) :
    roman_num n = romanStd n := by
  have key : ∀ m : ℕ, m < 100 → roman_num m = romanStd m := by decide
  exact key n (by omega)

/-- Witness for C10 at `n = 4`. -/
theorem roman_num_correct_witness :
    1 ≤ 4 ∧ 4 ≤ 99 ∧ roman_num 4 = romanStd 4 :=
  ⟨by decide, by decide, roman_num_correct 4 (by decide) (by decide)⟩

/-- If a prefix of entries applies cleanly, `config` on a longer list
continues from the state the prefix reached. -/
lemma config_ok_append (s s' : ConfigState) (xs ys : List (String × Value))
    (h : config s xs = (s', none)) : config s (xs ++ ys) = config s' ys := by
  induction xs generalizing s with
  | nil =>
    simp only [config] at h
    have hs : s = s' := congrArg Prod.fst h
    subst hs
    rfl
  | cons hd tl ih =>
    obtain ⟨k, v⟩ := hd
    simp only [config, List.cons_append] at h ⊢
    cases hstep : step s k v with
    | ok s1 =>
      rw [hstep] at h
      exact ih s1 h
    | error e =>
      rw [hstep] at h
      exact absurd (congrArg Prod.snd h) (by simp)

/-- The exception produced by a `config` entry carries the offending
option's name (the aliases `bg` and `mk` are reported under their full
names `background` and `markcolor`). -/
lemma stepBackground_error_key (s : ConfigState) (v : Value)
    (err : ConfigError) (h : stepBackground s v = .error err) :
    err.key = "background" := by
  cases v <;> simp only [stepBackground] at h <;>
    first
      | (injection h with h; subst h; rfl)
      | exact Except.noConfusion h

lemma stepHandcolor_error_key (s : ConfigState) (v : Value)
    (err : ConfigError) (h : stepHandcolor s v = .error err) :
    err.key = "handcolor" := by
  cases v <;> simp only [stepHandcolor] at h <;> (try split_ifs at h) <;>
    first
      | (injection h with h; subst h; rfl)
      | exact Except.noConfusion h

lemma stepMarkcolor_error_key (s : ConfigState) (v : Value)
    (err : ConfigError) (h : stepMarkcolor s v = .error err) :
    err.key = "markcolor" := by
  cases v <;> simp only [stepMarkcolor] at h <;> (try split_ifs at h) <;>
    first
      | (injection h with h; subst h; rfl)
      | exact Except.noConfusion h

lemma stepMarks_error_key (s : ConfigState) (v : Value)
    (err : ConfigError) (h : stepMarks s v = .error err) :
    err.key = "marks" := by
  cases v <;> simp only [stepMarks] at h <;> (try split_ifs at h) <;>
    first
      | (injection h with h; subst h; rfl)
      | exact Except.noConfusion h

lemma stepShape_error_key (v : Value) (err : ConfigError)
    (h : stepShape v = .error err) : err.key = "shape" := by
  simp only [stepShape] at h
  split_ifs at h <;> (injection h with h; subst h; rfl)

lemma stepSize_error_key (s : ConfigState) (v : Value) (err : ConfigError)
    (h : stepSize s v = .error err) : err.key = "size" := by
  simp only [stepSize] at h
  split_ifs at h <;>
    first
      | (injection h with h; subst h; rfl)
      | exact Except.noConfusion h

lemma stepSmooth_error_key (s : ConfigState) (v : Value) (err : ConfigError)
    (h : stepSmooth s v = .error err) : err.key = "smooth" := by
  cases v <;> simp only [stepSmooth] at h <;>
    first
      | (injection h with h; subst h; rfl)
      | exact Except.noConfusion h

lemma stepWedge_error_key (v : Value) (err : ConfigError)
    (h : stepWedge v = .error err) : err.key = "wedge_size" := by
  simp only [stepWedge] at h
  split_ifs at h <;> (injection h with h; subst h; rfl)

lemma stepUpdateRate_error_key (s : ConfigState) (v : Value)
    (err : ConfigError) (h : stepUpdateRate s v = .error err) :
    err.key = "update_rate" := by
  simp only [stepUpdateRate] at h
  split_ifs at h <;>
    first
      | (injection h with h; subst h; rfl)
      | exact Except.noConfusion h

lemma step_error_key (s : ConfigState) (k : String) (v : Value)
    (err : ConfigError) (h : step s k v = .error err) :
    err.key = k ∨ (k = "bg" ∧ err.key = "background") ∨
      (k = "mk" ∧ err.key = "markcolor") := by
  unfold step at h
  split_ifs at h with h1 h2 h3 h4 h5 h6 h7 h8 h9
  · rcases h1 with h1 | h1
    · exact Or.inl ((stepBackground_error_key s v err h).trans h1.symm)
    · exact Or.inr (Or.inl ⟨h1, stepBackground_error_key s v err h⟩)
  · exact Or.inl ((stepHandcolor_error_key s v err h).trans h2.symm)
  · rcases h3 with h3 | h3
    · exact Or.inl ((stepMarkcolor_error_key s v err h).trans h3.symm)
    · exact Or.inr (Or.inr ⟨h3, stepMarkcolor_error_key s v err h⟩)
  · exact Or.inl ((stepMarks_error_key s v err h).trans h4.symm)
  · exact Or.inl ((stepShape_error_key v err h).trans h5.symm)
  · exact Or.inl ((stepSize_error_key s v err h).trans h6.symm)
  · exact Or.inl ((stepSmooth_error_key s v err h).trans h7.symm)
  · exact Or.inl ((stepWedge_error_key v err h).trans h8.symm)
  · exact Or.inl ((stepUpdateRate_error_key s v err h).trans h9.symm)
  · injection h with h
    subst h
    exact Or.inl rfl

/-- C3: in a `config` call, if every entry before some entry `(k, v)`
applies cleanly and `(k, v)` raises, then the call returns exactly the
state reached by the clean prefix together with that exception — the
entries after `(k, v)` are never applied, and the exception names the
offending option. -/
theorem config_first_error (s s' : ConfigState) (xs ys : List (String × Value))
    (k : String) (v : Value) (err : ConfigError)
    (hpre : config s xs = (s', none)) (herr : step s' k v = .error err) :
    config s (xs ++ (k, v) :: ys) = (s', some err) ∧
      (err.key = k ∨ (k = "bg" ∧ err.key = "background") ∨
        (k = "mk" ∧ err.key = "markcolor")) := by
  refine ⟨?_, step_error_key s' k v err herr⟩
  rw [config_ok_append s s' xs ((k, v) :: ys) hpre]
  simp only [config, herr]

/-- Witness for C3: the valid entry `smooth := true` is applied, the
unrecognized key `nosuch` raises a `KeyError` naming itself, and the
later `handcolor` entry is never applied. -/
theorem config_first_error_witness :
    config DEFAULT_CONFIG
        ([("smooth", Value.bool true)] ++
          ("nosuch", Value.int 1) :: [("handcolor", Value.str "#000000")]) =
      ({ DEFAULT_CONFIG with smooth := true },
        some ⟨"nosuch", FaultKind.keyError⟩) ∧
      ((ConfigError.mk "nosuch" FaultKind.keyError).key = "nosuch" ∨
        ("nosuch" = "bg" ∧
          (ConfigError.mk "nosuch" FaultKind.keyError).key = "background") ∨
        ("nosuch" = "mk" ∧
          (ConfigError.mk "nosuch" FaultKind.keyError).key = "markcolor")) :=
  config_first_error DEFAULT_CONFIG { DEFAULT_CONFIG with smooth := true }
    [("smooth", Value.bool true)] [("handcolor", Value.str "#000000")]
    "nosuch" (Value.int 1) ⟨"nosuch", FaultKind.keyError⟩ rfl rfl

/-- Any successful `config` entry keeps `update_rate` positive and the
hand and mark colors valid hex strings: `handcolor`/`markcolor` only
accept `valid_hex` strings, `update_rate` only positive numbers, and no
other option touches these fields. -/
lemma step_ok_inv (s s' : ConfigState) (k : String) (v : Value)
    (h : step s k v = .ok s')
    (hu : 0 < s.update_rate) (hh : valid_hex s.handcolor = true)
    (hm : valid_hex s.markcolor = true) :
    0 < s'.update_rate ∧ valid_hex s'.handcolor = true ∧
      valid_hex s'.markcolor = true := by
  unfold step at h
  split_ifs at h <;>
    first
      | exact Except.noConfusion h
      | (cases v <;>
          simp only [stepBackground, stepHandcolor, stepMarkcolor, stepMarks,
            stepShape, stepSize, stepSmooth, stepWedge, stepUpdateRate] at h <;>
          (try split_ifs at h) <;>
          first
            | exact Except.noConfusion h
            | (injection h with h; subst h;
               exact ⟨by assumption, by assumption, by assumption⟩))

/-- `config` preserves the reachable-state invariant, entry by entry,
whether or not the call ends in an exception. -/
lemma config_inv (s : ConfigState) (l : List (String × Value))
    (hu : 0 < s.update_rate) (hh : valid_hex s.handcolor = true)
    (hm : valid_hex s.markcolor = true) :
    0 < (config s l).1.update_rate ∧
      valid_hex (config s l).1.handcolor = true ∧
      valid_hex (config s l).1.markcolor = true := by
  induction l generalizing s with
  | nil => exact ⟨hu, hh, hm⟩
  | cons hd tl ih =>
    obtain ⟨k, v⟩ := hd
    simp only [config]
    cases hstep : step s k v with
    | ok s1 =>
      obtain ⟨h1, h2, h3⟩ := step_ok_inv s s1 k v hstep hu hh hm
      exact ih s1 h1 h2 h3
    | error e => exact ⟨hu, hh, hm⟩

/-- C4 (amended): every configuration state reachable from construction
through any sequence of `config` calls has `update_rate > 0` and valid
`#RRGGBB` hand and mark colors.  The claimed `size > 0` part is false:
see the counterexample below. -/
theorem reachable_invariant (s : ConfigState) (hs : Reach s) :
    0 < s.update_rate ∧ valid_hex s.handcolor = true ∧
      valid_hex s.markcolor = true := by
  induction hs with
  | init => exact ⟨by norm_num [DEFAULT_CONFIG], rfl, rfl⟩
  | update s l _ ih => exact config_inv s l ih.1 ih.2.1 ih.2.2

/-- Witness for the amended C4 at the default configuration. -/
theorem reachable_invariant_witness :
    0 < DEFAULT_CONFIG.update_rate ∧
      valid_hex DEFAULT_CONFIG.handcolor = true ∧
      valid_hex DEFAULT_CONFIG.markcolor = true :=
  reachable_invariant DEFAULT_CONFIG Reach.init

/-- C4 (counterexample): `config` applies `size := 0` without any
positivity check, so a reachable state violates the claimed
`size > 0` invariant. -/
theorem reachable_size_not_positive :
    Reach (config DEFAULT_CONFIG [("size", Value.int 0)]).1 ∧
      ¬ 0 < (config DEFAULT_CONFIG [("size", Value.int 0)]).1.size := by
  constructor
  · exact Reach.update DEFAULT_CONFIG [("size", Value.int 0)] Reach.init
  · decide

/-- C5 (code bug): at the default configuration, which has
`smooth = False` and `update_rate = 10`, the delay `_tick` schedules is
`1000 // 10 = 100` milliseconds, not the once-per-second 1000
milliseconds its own docstring (and the spec) promise for non-smooth
mode. -/
theorem tick_delay_ignores_smooth :
    DEFAULT_CONFIG.smooth = false ∧ tick_delay DEFAULT_CONFIG = 100 ∧
      tick_delay DEFAULT_CONFIG ≠ 1000 := by
  refine ⟨rfl, ?_, ?_⟩ <;> norm_num [tick_delay, DEFAULT_CONFIG]

end ClockFace

namespace MoneyTimer

/-- `mergeStep` leaves every key other than its own untouched. -/
lemma mergeStep_other (t : String → Option JValue) (kv : String × JValue)
    (q : String) (hq : q ≠ kv.1) : mergeStep t kv q = t q := by
  unfold mergeStep setKey
  cases t kv.1 with
  | none => simp [hq]
  | some v => by_cases h : v.pyType = kv.2.pyType <;> simp [h, hq]

/-- Folding `mergeStep` over defaults whose keys avoid `q` leaves the
stored value at `q` unchanged. -/
lemma foldl_merge_not_mem (l : List (String × JValue)) (t : String → Option JValue)
    (q : String) (hq : q ∉ l.map Prod.fst) : l.foldl mergeStep t q = t q := by
  induction l generalizing t with
  | nil => rfl
  | cons hd tl ih =>
    simp only [List.map_cons, List.mem_cons] at hq
    push_neg at hq
    rw [List.foldl_cons, ih _ hq.2, mergeStep_other t hd q hq.1]

/-- `mergeStep` at its own key: fill when missing, reset on a type
mismatch, keep the stored value otherwise. -/
lemma mergeStep_self (t : String → Option JValue) (k : String) (v : JValue) :
    mergeStep t (k, v) k =
      (match t k with
        | none => some v
        | some w => if w.pyType = v.pyType then some w else some v) := by
  unfold mergeStep setKey
  cases htk : t k with
  | none => simp
  | some w => by_cases h : w.pyType = v.pyType <;> simp [h, htk]

/-- The merge rule for any defaults list with distinct keys. -/
lemma foldl_merge_mem (k : String) (v : JValue) :
    ∀ l : List (String × JValue), (l.map Prod.fst).Nodup →
      ∀ t : String → Option JValue, (k, v) ∈ l →
        l.foldl mergeStep t k =
          (match t k with
            | none => some v
            | some w => if w.pyType = v.pyType then some w else some v) := by
  intro l
  induction l with
  | nil =>
    intro _ t hm
    cases hm
  | cons hd tl ih =>
    intro hnd t hm
    simp only [List.map_cons, List.nodup_cons] at hnd
    rw [List.foldl_cons]
    rcases List.mem_cons.mp hm with heq | htl
    · subst heq
      have hk : k ∉ tl.map Prod.fst := hnd.1
      rw [foldl_merge_not_mem tl _ k hk, mergeStep_self]
    · have hk : k ≠ hd.1 := by
        intro hkk
        exact hnd.1 (hkk ▸ List.mem_map_of_mem Prod.fst htl)
      rw [ih hnd.2 _ htl, mergeStep_other t hd k hk]

/-- C6: for every stored settings document that parses as a JSON object,
every key of the default table ends up present; a missing key gets the
default, a type-mismatched key is reset to the default, and a stored
value of the right type is kept. -/
theorem settings_load_merges (t : String → Option JValue) (k : String)
    (v : JValue) (hmem : (k, v) ∈ DEFAULT_SETTINGS) :
    (load_settings t k).isSome = true ∧
      load_settings t k =
        (match t k with
          | none => some v
          | some w => if w.pyType = v.pyType then some w else some v) := by
  have hnd : (DEFAULT_SETTINGS.map Prod.fst).Nodup := by decide
  have hmain := foldl_merge_mem k v DEFAULT_SETTINGS hnd t hmem
  constructor
  · show (DEFAULT_SETTINGS.foldl mergeStep t k).isSome = true
    rw [hmain]
    cases t k with
    | none => rfl
    | some w => by_cases h : w.pyType = v.pyType <;> simp [h]
  · exact hmain

/-- Witness for C6: loading an empty stored document fills in the
default hourly rate. -/
theorem settings_load_merges_witness :
    (load_settings (fun _ => none) "hourlyRate").isSome = true ∧
      load_settings (fun _ => none) "hourlyRate" =
        (match (fun _ => (none : Option JValue)) "hourlyRate" with
          | none => some (JValue.jfloat (43/2))
          | some w =>
            if w.pyType = (JValue.jfloat (43/2)).pyType then some w
            else some (JValue.jfloat (43/2))) :=
  settings_load_merges (fun _ => none) "hourlyRate" (JValue.jfloat (43/2))
    (by simp [DEFAULT_SETTINGS])

/-- If any record of the remaining suffix neither matches today's date
nor validates, the history loop returns the empty list. -/
lemma histGo_discard (d : Date) (temp : List (List (String × JValue))) :
    ∀ (rest : List (List (String × JValue))) (i : ℕ) (toDel : Option ℕ)
      (j : ℕ) (hj : j < rest.length),
      matchesToday d (rest.get ⟨j, hj⟩) = some false →
      validateRec (rest.get ⟨j, hj⟩) ≠ some true →
      histGo d temp rest i toDel = [] := by
  intro rest
  induction rest with
  | nil =>
    intro i toDel j hj _ _
    exact absurd hj (by simp)
  | cons r rest' ih =>
    intro i toDel j hj hmatch hval
    cases j with
    | zero =>
      simp only [List.get] at hmatch hval
      simp only [histGo]
      rw [hmatch]
      cases hv : validateRec r with
      | none => rfl
      | some b =>
        cases b with
        | false => rfl
        | true => exact absurd hv hval
    | succ j' =>
      have hj' : j' < rest'.length := by simpa using hj
      simp only [histGo]
      cases hm : matchesToday d r with
      | none => rfl
      | some b =>
        cases b with
        | true => exact ih (i + 1) (some i) j' hj' hmatch hval
        | false =>
          cases hv : validateRec r with
          | none => rfl
          | some b2 =>
            cases b2 with
            | false => rfl
            | true => exact ih (i + 1) toDel j' hj' hmatch hval

/-- C7 (amended): if some record that is not recognized as the current
day fails type validation (or lacks a required field), the whole history
is discarded. -/
theorem history_discard_invalid (d : Date)
    (temp : List (List (String × JValue))) (i : ℕ) (hi : i < temp.length)
    (hmatch : matchesToday d (temp.get ⟨i, hi⟩) = some false)
    (hval : validateRec (temp.get ⟨i, hi⟩) ≠ some true) :
    load_history d temp = [] :=
  histGo_discard d temp temp 0 none i hi hmatch hval

/-- An old record whose `wday` field holds an int instead of a string. -/
def recBadOld : List (String × JValue) :=
  [("year", .jint 2000), ("mon", .jint 1), ("day", .jint 1),
   ("wday", .jint 5), ("secSoFar", .jfloat 0), ("earnings", .jfloat 0),
   ("percent", .jfloat 0)]

/-- Witness for the amended C7: a single wrong-typed old record empties
the loaded history. -/
theorem history_discard_invalid_witness :
    load_history ⟨2026, 10, 12⟩ [recBadOld] = [] :=
  history_discard_invalid ⟨2026, 10, 12⟩ [recBadOld] 0 (by decide)
    (by decide) (by decide)

/-- A record for the current day (2026-10-12) whose `wday` field holds
an int instead of a string. -/
def recBadToday : List (String × JValue) :=
  [("year", .jint 2026), ("mon", .jint 10), ("day", .jint 12),
   ("wday", .jint 5), ("secSoFar", .jfloat 0), ("earnings", .jfloat 0),
   ("percent", .jfloat 0)]

/-- A fully valid old record. -/
def recGoodOld : List (String × JValue) :=
  [("year", .jint 2025), ("mon", .jint 1), ("day", .jint 2),
   ("wday", .jstr "Mon"), ("secSoFar", .jfloat 100), ("earnings", .jfloat 5),
   ("percent", .jfloat 50)]

/-- C7 (counterexample): a history containing a wrong-typed record is
not always discarded — a record matching the current day skips
validation, is deleted, and the remaining records are returned, so the
load yields a non-empty, partially filtered history. -/
theorem history_partial_load :
    validateRec recBadToday = some false ∧
      load_history ⟨2026, 10, 12⟩ [recBadToday, recGoodOld] = [recGoodOld] ∧
      [recGoodOld] ≠ ([] : List (List (String × JValue))) := by
  refine ⟨rfl, rfl, by simp⟩

end MoneyTimer
